import Mathlib

/-!
Shallow embedding of `reddit_scraper.py` (class `RedditScraper`).

Conventions of the embedding:
* Machine integers and Unix timestamps are `Int` (seconds since the epoch);
  the process timezone is taken to be UTC, so `datetime(...).timestamp()` is
  seconds at midnight UTC of the given calendar date.
* The remote Reddit API (praw) is an external collaborator.  Its observable
  behaviour is supplied by an environment: for every (subreddit, query) pair
  the environment gives the sequence of submissions the paginated search
  yields, together with an optional point at which pulling the next result
  raises (network failure, remote error); a per-post flag says whether
  expanding/retrieving that post's comment tree raises.
* Fallible I/O free code is modelled as pure state passing; CSV files are
  `Option` (absent vs. present) of a list of lines.
-/

/-! ### Static configuration (the CONFIG dict) -/

structure Config where
  subreddits : List String
  searchKeywords : List String
  limitPostsPerQuery : Nat
  commentLimitPerPost : Nat

def CONFIG : Config :=
  { subreddits :=
      ["IndiaSpeaks", "India", "IndiaNews", "IndianLeft", "DesiPolitics",
       "Bharat", "PoliticalAnalysisIndia", "ElectionFever"]
  , searchKeywords :=
      ["Lok Sabha election 2024", "Lok Sabha 2024", "general elections 2024",
       "voting 2024", "exit polls 2024", "election campaign", "election results",
       "BJP", "Congress", "INDIA alliance", "NDA", "AAP", "SP", "DMK",
       "Narendra Modi", "Rahul Gandhi", "Arvind Kejriwal", "Akhilesh Yadav",
       "MK Stalin", "Sharad Pawar", "Tejashwi Yadav", "Mamata Banerjee",
       "Yogi Adityanath", "Shiv Sena", "Shiv Sena split", "AIADMK", "BSP",
       "INC", "CPI", "farmers protest", "CAA NRC", "inflation India",
       "corruption India", "unemployment India", "MSP farmers", "Ram Mandir",
       "Bharat Jodo Yatra", "election manifesto", "development politics India",
       "Kejriwal arrest", "booth capturing", "roadshow election", "EVM", "VVPAT"]
  , limitPostsPerQuery := 1000
  , commentLimitPerPost := 10 }

/-! ### Calendar arithmetic (datetime + dateutil.relativedelta) -/

structure CalDate where
  year : Int
  month : Nat
  day : Nat
  deriving DecidableEq, Repr

def isLeap (y : Int) : Bool :=
  y % 4 == 0 && (y % 100 != 0 || y % 400 == 0)

def daysInMonth (y : Int) (m : Nat) : Nat :=
  if m = 2 then (if isLeap y then 29 else 28)
  else if m = 4 ∨ m = 6 ∨ m = 9 ∨ m = 11 then 30
  else 31

/-- `relativedelta(months=k)` applied to a date: shift by `k` calendar months,
clamping the day to the length of the target month. -/
def addMonths (dt : CalDate) (k : Int) : CalDate :=
  let total : Int := dt.year * 12 + (dt.month : Int) - 1 + k
  let y := total.fdiv 12
  let m := (total.fmod 12).toNat + 1
  { year := y, month := m, day := min dt.day (daysInMonth y m) }

/-- Days since 1970-01-01 of a proleptic-Gregorian civil date
(days-from-civil algorithm). -/
def daysFromCivil (y0 : Int) (m d : Nat) : Int :=
  let y : Int := if m ≤ 2 then y0 - 1 else y0
  let era : Int := (if 0 ≤ y then y else y - 399).fdiv 400
  let yoe : Nat := (y - era * 400).toNat
  let mp : Nat := if 2 < m then m - 3 else m + 9
  let doy : Nat := (153 * mp + 2) / 5 + d - 1
  let doe : Nat := yoe * 365 + yoe / 4 - yoe / 100 + doy
  era * 146097 + (doe : Int) - 719468

/-- Inverse of `daysFromCivil` (civil-from-days algorithm). -/
def civilFromDays (z0 : Int) : Int × Nat × Nat :=
  let z : Int := z0 + 719468
  let era : Int := (if 0 ≤ z then z else z - 146096).fdiv 146097
  let doe : Nat := (z - era * 146097).toNat
  let yoe : Nat := (doe - doe / 1460 + doe / 36524 - doe / 146096) / 365
  let y : Int := (yoe : Int) + era * 400
  let doy : Nat := doe - (365 * yoe + yoe / 4 - yoe / 100)
  let mp : Nat := (5 * doy + 2) / 153
  let d : Nat := doy - (153 * mp + 2) / 5 + 1
  let m : Nat := if mp < 10 then mp + 3 else mp - 9
  (if m ≤ 2 then y + 1 else y, m, d)

/-- Epoch seconds of a calendar date at midnight UTC
(`datetime(y, m, d).timestamp()` under a UTC process timezone). -/
def timestampOfDate (dt : CalDate) : Int :=
  86400 * daysFromCivil dt.year dt.month dt.day

/-- Epoch seconds of an arbitrary UTC instant; used to build test instants. -/
def tsUtc (y : Int) (m d h mi s : Nat) : Int :=
  86400 * daysFromCivil y m d + 3600 * (h : Int) + 60 * (mi : Int) + (s : Int)

def pad2 (n : Nat) : String :=
  if n < 10 then "0" ++ toString n else toString n

/-- `datetime.fromtimestamp(ts, timezone.utc).strftime('%Y-%m-%d %H:%M:%S')`. -/
def formatUtc (ts : Int) : String :=
  let days := ts.fdiv 86400
  let secs := (ts - days * 86400).toNat
  let c := civilFromDays days
  toString c.1 ++ "-" ++ pad2 c.2.1 ++ "-" ++ pad2 c.2.2 ++ " " ++
    pad2 (secs / 3600) ++ ":" ++ pad2 (secs % 3600 / 60) ++ ":" ++ pad2 (secs % 60)

/-! ### The fixed election time window (`scrape_data`, lines 159-164) -/

def electionDate : CalDate := { year := 2024, month := 6, day := 4 }

def startDate : CalDate := addMonths electionDate (-5)

def endDate : CalDate := addMonths electionDate 2

def startTimestamp : Int := timestampOfDate startDate

def endTimestamp : Int := timestampOfDate endDate

/-! ### Reply forests (praw comment trees) -/

/-- A normalized reply as served by the remote source.  `author = none`
models a deleted/removed account (praw gives `None`; `str` renders it). -/
structure CommentData where
  id : String
  body : String
  score : Int
  author : Option String
  deriving DecidableEq, Repr

/-- A node of the raw reddit comment tree: a real comment with children, or a
"load more replies" placeholder standing for further (hidden) nodes. -/
inductive ReplyNode where
  | comment (data : CommentData) (children : List ReplyNode)
  | more (hidden : List ReplyNode)
  deriving Repr

/-- A comment tree after all placeholders have been resolved. -/
inductive CTree where
  | node (data : CommentData) (children : List CTree)
  deriving Repr

/-- `post.comments.replace_more(limit=0)`: fetch every `MoreComments`
placeholder, splicing the fetched nodes into the tree in place. -/
def expandForest : List ReplyNode → List CTree
  | [] => []
  | ReplyNode.comment d cs :: rest => CTree.node d (expandForest cs) :: expandForest rest
  | ReplyNode.more hidden :: rest => expandForest hidden ++ expandForest rest

def forestSize : List CTree → Nat
  | [] => 0
  | CTree.node _ cs :: rest => 1 + forestSize cs + forestSize rest

/-- `post.comments.list()`: flatten the (fully expanded) comment forest in
breadth-first order, the order praw provides. -/
def flattenForest : List CTree → List CommentData
  | [] => []
  | CTree.node d cs :: rest => d :: flattenForest (rest ++ cs)
termination_by l => forestSize l
decreasing_by
  have h : ∀ a b : List CTree, forestSize (a ++ b) = forestSize a + forestSize b := by
    intro a b
    induction a with
    | nil => simp [forestSize]
    | cons t ts ih =>
      cases t with
      | node d cs => simp [forestSize, ih]; omega
  simp only [forestSize, h]
  omega

/-- Total number of real comments in a raw reply forest, including every
comment hidden behind a "load more replies" placeholder. -/
def countReplies : List ReplyNode → Nat
  | [] => 0
  | ReplyNode.comment _ cs :: rest => 1 + countReplies cs + countReplies rest
  | ReplyNode.more hidden :: rest => countReplies hidden + countReplies rest

/-! ### Posts and output rows -/

/-- A candidate submission handle yielded by the remote search, together with
the environment's behaviour for its comment tree (`commentsFail` is true when
expanding/retrieving the replies raises). -/
structure Post where
  id : String
  title : String
  selftext : String
  score : Int
  upvoteRatio : Rat
  numComments : Nat
  url : String
  author : Option String
  created_utc : Int
  replies : List ReplyNode
  commentsFail : Bool
  deriving Repr

/-- `str(x)` for a possibly-deleted account. -/
def strOfAuthor : Option String → String
  | none => "None"
  | some s => s

/-- A row of `reddit_posts.csv`. -/
structure PostRow where
  post_id : String
  subreddit : String
  keyword : String
  title : String
  selftext : String
  score : Int
  upvote_ratio : Rat
  num_comments : Nat
  url : String
  author : String
  created_utc : String
  deriving DecidableEq, Repr

/-- A row of `reddit_comments.csv`. -/
structure CommentRow where
  comment_id : String
  post_id : String
  body : String
  score : Int
  author : String
  created_utc : String
  deriving DecidableEq, Repr

def toPostRow (sub query : String) (p : Post) : PostRow :=
  { post_id := p.id
  , subreddit := sub
  , keyword := query
  , title := p.title
  , selftext := p.selftext
  , score := p.score
  , upvote_ratio := p.upvoteRatio
  , num_comments := p.numComments
  , url := p.url
  , author := strOfAuthor p.author
  , created_utc := formatUtc p.created_utc }

/-- A comment record as built in the `_fetch_comments` loop; note that
`created_utc` is formatted from the parent post's creation instant. -/
def mkCommentRow (post : Post) (c : CommentData) : CommentRow :=
  { comment_id := c.id
  , post_id := post.id
  , body := c.body
  , score := c.score
  , author := strOfAuthor c.author
  , created_utc := formatUtc post.created_utc }

/-- `RedditScraper._fetch_comments`: expand all placeholders, flatten, keep
the first `limit` comments (`for i, comment in enumerate: if i >= limit:
break`).  A failure while expanding/retrieving the replies is raised by the
remote calls (`replace_more` / `.list()`), before any record is appended;
it is caught and the (still empty) record list is returned. -/
def fetchComments (limit : Nat) (post : Post) : List CommentRow :=
  if post.commentsFail then []
  else ((flattenForest (expandForest post.replies)).take limit).map (mkCommentRow post)

/-! ### CSV persistence (`_save_data`) and the registry load -/

/-- One line of a CSV artifact: the header row or a data row. -/
inductive CsvLine (α : Type) where
  | header
  | row (r : α)
  deriving DecidableEq, Repr

/-- A CSV artifact on disk: `none` when the file does not exist. -/
def CsvFile (α : Type) : Type := Option (List (CsvLine α))

/-- `RedditScraper._save_data`: empty batch is an early return; otherwise
append the rows, writing the header exactly when the file did not exist
(`header=is_new`, `mode='a'`). -/
def saveData {α : Type} (data : List α) (file : CsvFile α) : CsvFile α :=
  if data.isEmpty then file
  else
    match file with
    | none => some (CsvLine.header :: data.map CsvLine.row)
    | some lines => some (lines ++ data.map CsvLine.row)

def rowData {α : Type} : CsvLine α → Option α
  | CsvLine.header => none
  | CsvLine.row r => some r

/-- The data rows of an artifact (empty when the file is absent). -/
def fileRows {α : Type} (file : CsvFile α) : List α :=
  (file.getD []).filterMap rowData

/-- `RedditScraper._load_processed_ids`: absent file gives the empty set;
otherwise the distinct values of the `post_id` column (a header-only file
parses as zero data rows and also gives the empty set). -/
def loadProcessedIds (file : CsvFile PostRow) : List String :=
  match file with
  | none => []
  | some lines => ((lines.filterMap rowData).map PostRow.post_id).dedup

/-! ### The collection driver (`scrape_data`) -/

/-- The mutable per-pair state of the inner loop: the shared
`processed_post_ids` set plus the pair's in-memory batches. -/
structure PairAcc where
  registry : List String
  posts : List PostRow
  comments : List CommentRow
  deriving Repr

/-- The body of `for post in search_results:` for one candidate: skip when
already processed; skip when the creation instant falls outside the window
(`post_timestamp < start_timestamp or post_timestamp > end_timestamp`);
otherwise append the thread record, harvest its comments, and register the
identifier immediately. -/
def stepPost (commentLimit : Nat) (sub query : String) (acc : PairAcc) (post : Post) : PairAcc :=
  if post.id ∈ acc.registry then acc
  else if post.created_utc < startTimestamp ∨ endTimestamp < post.created_utc then acc
  else
    { registry := post.id :: acc.registry
    , posts := acc.posts ++ [toPostRow sub query post]
    , comments := acc.comments ++ fetchComments commentLimit post }

def processPosts (commentLimit : Nat) (sub query : String) (acc : PairAcc) :
    List Post → PairAcc
  | [] => acc
  | p :: ps => processPosts commentLimit sub query (stepPost commentLimit sub query acc p) ps

/-- Environment behaviour of one `(subreddit, query)` search: the submissions
the paginated search yields (already capped by the requested result limit on
the remote side), and — when `failAfter = some k` — a failure raised while
pulling the next result after `k` candidates were consumed (`some 0` models
the search call itself raising). -/
structure PairEnv where
  posts : List Post
  failAfter : Option Nat

/-- The candidates actually handed to the loop body before the pair either
finishes or raises. -/
def consumedPosts (cfg : Config) (penv : PairEnv) : List Post :=
  let results := penv.posts.take cfg.limitPostsPerQuery
  match penv.failAfter with
  | none => results
  | some k => results.take k

def pairFailed (penv : PairEnv) : Bool :=
  penv.failAfter.isSome

/-- The in-memory state right after the candidate loop of one pair (whether
or not the pair subsequently turns out to have raised). -/
def pairBatch (cfg : Config) (sub query : String) (penv : PairEnv)
    (registry : List String) : PairAcc :=
  processPosts cfg.commentLimitPerPost sub query
    { registry := registry, posts := [], comments := [] } (consumedPosts cfg penv)

/-- Driver-visible events, in program order: the `logging.error` of the
`except` branch, and the inter-pair `time.sleep(2)`. -/
inductive RunEvent where
  | errorLog (sub query : String)
  | sleep
  deriving DecidableEq, Repr

structure RunState where
  registry : List String
  postsFile : CsvFile PostRow
  commentsFile : CsvFile CommentRow
  events : List RunEvent

/-- One iteration of the pair loop.  On an exception the batches are
discarded and the error is logged — but the `processed_post_ids` mutations
survive, and the `time.sleep(2)` inside the `try` block is skipped.  On
success each non-empty batch is appended and the courtesy delay runs. -/
def runPair (cfg : Config) (env : String → String → PairEnv) (st : RunState)
    (pr : String × String) : RunState :=
  let penv := env pr.1 pr.2
  let acc := pairBatch cfg pr.1 pr.2 penv st.registry
  if pairFailed penv then
    { st with
      registry := acc.registry
      events := st.events ++ [RunEvent.errorLog pr.1 pr.2] }
  else
    { registry := acc.registry
    , postsFile := if acc.posts.isEmpty then st.postsFile else saveData acc.posts st.postsFile
    , commentsFile :=
        if acc.comments.isEmpty then st.commentsFile else saveData acc.comments st.commentsFile
    , events := st.events ++ [RunEvent.sleep] }

def runPairs (cfg : Config) (env : String → String → PairEnv) (st : RunState) :
    List (String × String) → RunState
  | [] => st
  | pr :: prs => runPairs cfg env (runPair cfg env st pr) prs

/-- The cross product `for subreddit_name in ...: for query in ...:`. -/
def allPairs (cfg : Config) : List (String × String) :=
  cfg.subreddits.foldr (fun s acc => (cfg.searchKeywords.map fun q => (s, q)) ++ acc) []

/-- `scrape_data` applied to the run state. -/
def scrapeData (cfg : Config) (env : String → String → PairEnv) (st : RunState) : RunState :=
  runPairs cfg env st (allPairs cfg)

/-- A whole process run: `__init__` seeds the duplicate registry from the
existing posts artifact, then `scrape_data` walks every pair. -/
def runScraper (cfg : Config) (env : String → String → PairEnv)
    (postsFile : CsvFile PostRow) (commentsFile : CsvFile CommentRow) : RunState :=
  scrapeData cfg env
    { registry := loadProcessedIds postsFile
    , postsFile := postsFile
    , commentsFile := commentsFile
    , events := [] }

/-! ### Derived (ghost) views of a run, used to state properties -/

/-- The window predicate the local re-validation applies to a candidate. -/
def inWindowP (p : Post) : Prop :=
  ¬(p.created_utc < startTimestamp ∨ endTimestamp < p.created_utc)

instance (p : Post) : Decidable (inWindowP p) := by
  unfold inWindowP; infer_instance

/-- The registry contents after running a list of pairs from a registry. -/
def regAfterPairs (cfg : Config) (env : String → String → PairEnv) :
    List (String × String) → List String → List String
  | [], reg => reg
  | pr :: prs, reg =>
      regAfterPairs cfg env prs (pairBatch cfg pr.1 pr.2 (env pr.1 pr.2) reg).registry

/-- The thread rows one pair flushes to disk: its batch when it completes,
nothing when it raises. -/
def flushedPosts (cfg : Config) (sub query : String) (penv : PairEnv)
    (registry : List String) : List PostRow :=
  if pairFailed penv then [] else (pairBatch cfg sub query penv registry).posts

/-- The comment rows one pair flushes to disk. -/
def flushedComments (cfg : Config) (sub query : String) (penv : PairEnv)
    (registry : List String) : List CommentRow :=
  if pairFailed penv then [] else (pairBatch cfg sub query penv registry).comments

/-- All thread rows a run appends, pair by pair. -/
def flushedPostsAll (cfg : Config) (env : String → String → PairEnv) :
    List (String × String) → List String → List PostRow
  | [], _ => []
  | pr :: prs, reg =>
      flushedPosts cfg pr.1 pr.2 (env pr.1 pr.2) reg ++
        flushedPostsAll cfg env prs (pairBatch cfg pr.1 pr.2 (env pr.1 pr.2) reg).registry

/-- All comment rows a run appends, pair by pair. -/
def flushedCommentsAll (cfg : Config) (env : String → String → PairEnv) :
    List (String × String) → List String → List CommentRow
  | [], _ => []
  | pr :: prs, reg =>
      flushedComments cfg pr.1 pr.2 (env pr.1 pr.2) reg ++
        flushedCommentsAll cfg env prs (pairBatch cfg pr.1 pr.2 (env pr.1 pr.2) reg).registry

/-- The single driver event a pair contributes. -/
def pairEvent (penv : PairEnv) (pr : String × String) : RunEvent :=
  if pairFailed penv then RunEvent.errorLog pr.1 pr.2 else RunEvent.sleep

/-! ### Concrete data used to exercise the model on closed inputs -/

/-- A minimal candidate submission with a given identifier and creation
instant, no replies, and a healthy comment tree. -/
def testPost (i : String) (ts : Int) : Post :=
  { id := i
  , title := "t"
  , selftext := ""
  , score := 1
  , upvoteRatio := 1
  , numComments := 0
  , url := "u"
  , author := some "a"
  , created_utc := ts
  , replies := []
  , commentsFail := false }

def leafReply (i : Nat) : ReplyNode :=
  ReplyNode.comment { id := toString i, body := "b", score := 0, author := some "a" } []

/-- A reply forest with 50 comments: 40 visible top-level ones and 10 more
hidden behind a "load more replies" placeholder. -/
def bigForest : List ReplyNode :=
  List.replicate 40 (leafReply 1) ++ [ReplyNode.more (List.replicate 10 (leafReply 2))]

def post50 : Post :=
  { testPost "p50" (tsUtc 2024 6 4 0 0 0) with replies := bigForest }

def postOneReply : Post :=
  { testPost "pr" (tsUtc 2024 3 1 12 0 0) with
      replies := [ReplyNode.comment { id := "c1", body := "hello", score := 2, author := none } []] }

def postFailC : Post :=
  { testPost "pf" (tsUtc 2024 2 2 0 0 0) with commentsFail := true }

def accE : PairAcc := { registry := [], posts := [], comments := [] }

def cfgOnePair : Config :=
  { subreddits := ["A"], searchKeywords := ["Q"]
  , limitPostsPerQuery := 1000, commentLimitPerPost := 10 }

def cfgTwoQueries : Config :=
  { subreddits := ["A"], searchKeywords := ["Q1", "Q2"]
  , limitPostsPerQuery := 1000, commentLimitPerPost := 10 }

/-- An in-window submission used in driver scenarios.  Its comment retrieval
raises (so the harvester contributes no records), which keeps driver runs on
this submission evaluable by kernel reduction on closed terms. -/
def postX : Post :=
  { testPost "x" (tsUtc 2024 6 4 0 0 0) with commentsFail := true }

/-- Every search raises immediately. -/
def envFailAll : String → String → PairEnv :=
  fun _ _ => { posts := [], failAfter := some 0 }

/-- Every search succeeds and yields no results. -/
def envOk : String → String → PairEnv :=
  fun _ _ => { posts := [], failAfter := none }

/-- Every search yields the same single in-window submission. -/
def envSameX : String → String → PairEnv :=
  fun _ _ => { posts := [postX], failAfter := none }

/-- Searches for query Q1 yield the submission and then raise; all other
searches yield the same submission and succeed. -/
def envOneFails : String → String → PairEnv :=
  fun _ q =>
    if q = "Q1" then { posts := [postX], failAfter := some 1 }
    else { posts := [postX], failAfter := none }

def stE : RunState :=
  { registry := [], postsFile := none, commentsFile := none, events := [] }

/-! ### Lemmas: reply forests -/

theorem forestSize_append (a b : List CTree) :
    forestSize (a ++ b) = forestSize a + forestSize b := by
  induction a with
  | nil => simp [forestSize]
  | cons t ts ih =>
    cases t with
    | node d cs => simp [forestSize, ih]; omega

theorem flattenForest_length (l : List CTree) :
    (flattenForest l).length = forestSize l := by
  induction l using flattenForest.induct with
  | case1 =>
    rw [flattenForest]
    simp [forestSize]
  | case2 d cs rest ih =>
    rw [flattenForest]
    simp only [List.length_cons, ih, forestSize_append, forestSize]
    omega

theorem forestSize_expandForest (f : List ReplyNode) :
    forestSize (expandForest f) = countReplies f := by
  induction f using expandForest.induct with
  | case1 => simp [expandForest, countReplies, forestSize]
  | case2 d cs rest ih1 ih2 =>
    simp [expandForest, countReplies, forestSize, ih1, ih2]
  | case3 hidden rest ih1 ih2 =>
    simp [expandForest, countReplies, forestSize_append, ih1, ih2]

theorem countReplies_append (a b : List ReplyNode) :
    countReplies (a ++ b) = countReplies a + countReplies b := by
  induction a using countReplies.induct with
  | case1 => simp [countReplies]
  | case2 d cs rest ih1 ih2 =>
    simp only [List.cons_append, countReplies, ih2]
    omega
  | case3 hidden rest ih1 ih2 =>
    simp only [List.cons_append, countReplies, ih2]
    omega

theorem countReplies_replicate_leaf (n i : Nat) :
    countReplies (List.replicate n (leafReply i)) = n := by
  induction n with
  | zero => simp [countReplies]
  | succ m ih =>
    rw [List.replicate_succ]
    simp only [leafReply] at ih ⊢
    simp only [countReplies, ih]
    omega

theorem countReplies_bigForest : countReplies bigForest = 50 := by
  unfold bigForest
  rw [countReplies_append, countReplies_replicate_leaf]
  simp only [countReplies, countReplies_replicate_leaf]

/-! ### Lemmas: CSV persistence -/

theorem fileRows_saveData {α : Type} (d : List α) (f : CsvFile α) :
    fileRows (saveData d f) = fileRows f ++ d := by
  unfold saveData
  by_cases hd : d.isEmpty
  · simp [hd, List.isEmpty_iff.mp hd]
  · simp only [hd, if_neg, Bool.false_eq_true, not_false_eq_true]
    cases f with
    | none =>
      simp [fileRows, Option.getD, rowData, List.filterMap_map, Function.comp_def]
    | some lines =>
      simp [fileRows, Option.getD, rowData, List.filterMap_append,
        List.filterMap_map, Function.comp_def]

theorem mem_loadProcessedIds (f : CsvFile PostRow) (x : String) :
    x ∈ loadProcessedIds f ↔ x ∈ (fileRows f).map PostRow.post_id := by
  cases f with
  | none => simp [loadProcessedIds, fileRows, Option.getD]
  | some lines => simp [loadProcessedIds, fileRows, Option.getD, List.mem_dedup]

/-! ### Lemmas: the candidate loop -/

theorem stepPost_skip_mem (cl : Nat) (sub query : String) (acc : PairAcc) (p : Post)
    (h : p.id ∈ acc.registry) : stepPost cl sub query acc p = acc := by
  unfold stepPost
  simp [h]

theorem stepPost_skip_win (cl : Nat) (sub query : String) (acc : PairAcc) (p : Post)
    (h1 : p.id ∉ acc.registry)
    (h2 : p.created_utc < startTimestamp ∨ endTimestamp < p.created_utc) :
    stepPost cl sub query acc p = acc := by
  unfold stepPost
  simp [h1, h2]

theorem stepPost_accept (cl : Nat) (sub query : String) (acc : PairAcc) (p : Post)
    (h1 : p.id ∉ acc.registry) (h2 : inWindowP p) :
    stepPost cl sub query acc p =
      { registry := p.id :: acc.registry
      , posts := acc.posts ++ [toPostRow sub query p]
      , comments := acc.comments ++ fetchComments cl p } := by
  unfold inWindowP at h2
  unfold stepPost
  simp [h1, h2]

theorem processPosts_registry_iff (cl : Nat) (sub query : String) (l : List Post) :
    ∀ (acc : PairAcc) (x : String),
      x ∈ (processPosts cl sub query acc l).registry ↔
        x ∈ acc.registry ∨ ∃ p ∈ l, inWindowP p ∧ x = p.id := by
  induction l with
  | nil => intro acc x; simp [processPosts]
  | cons p ps ih =>
    intro acc x
    rw [processPosts, ih]
    have hstep : x ∈ (stepPost cl sub query acc p).registry ↔
        x ∈ acc.registry ∨ (inWindowP p ∧ x = p.id) := by
      by_cases hmem : p.id ∈ acc.registry
      · rw [stepPost_skip_mem cl sub query acc p hmem]
        constructor
        · exact fun h => Or.inl h
        · rintro (h | ⟨_, rfl⟩)
          · exact h
          · exact hmem
      · by_cases hwin : p.created_utc < startTimestamp ∨ endTimestamp < p.created_utc
        · rw [stepPost_skip_win cl sub query acc p hmem hwin]
          have : ¬ inWindowP p := by unfold inWindowP; exact fun h => h hwin
          tauto
        · rw [stepPost_accept cl sub query acc p hmem hwin]
          simp only [List.mem_cons]
          have : inWindowP p := hwin
          tauto
    rw [hstep]
    simp only [List.mem_cons]
    constructor
    · rintro ((h | ⟨hw, rfl⟩) | ⟨q, hq, hw, rfl⟩)
      · exact Or.inl h
      · exact Or.inr ⟨p, Or.inl rfl, hw, rfl⟩
      · exact Or.inr ⟨q, Or.inr hq, hw, rfl⟩
    · rintro (h | ⟨q, hq, hw, rfl⟩)
      · exact Or.inl (Or.inl h)
      · rcases hq with rfl | hq
        · exact Or.inl (Or.inr ⟨hw, rfl⟩)
        · exact Or.inr ⟨q, hq, hw, rfl⟩

theorem processPosts_const (cl : Nat) (sub query : String) (l : List Post) :
    ∀ acc : PairAcc, (∀ p ∈ l, inWindowP p → p.id ∈ acc.registry) →
      processPosts cl sub query acc l = acc := by
  induction l with
  | nil => intro acc _; rfl
  | cons p ps ih =>
    intro acc h
    have hstep : stepPost cl sub query acc p = acc := by
      by_cases hmem : p.id ∈ acc.registry
      · exact stepPost_skip_mem cl sub query acc p hmem
      · by_cases hwin : p.created_utc < startTimestamp ∨ endTimestamp < p.created_utc
        · exact stepPost_skip_win cl sub query acc p hmem hwin
        · exact absurd (h p (List.mem_cons_self p ps) hwin) hmem
    rw [processPosts, hstep]
    exact ih acc fun q hq => h q (List.mem_cons_of_mem p hq)

theorem processPosts_main (cl : Nat) (sub query : String) (l : List Post) :
    ∀ acc : PairAcc, ∃ new : List PostRow,
      (processPosts cl sub query acc l).posts = acc.posts ++ new ∧
      (∀ x, x ∈ (processPosts cl sub query acc l).registry ↔
        x ∈ acc.registry ∨ x ∈ new.map PostRow.post_id) ∧
      (∀ r ∈ new, r.post_id ∉ acc.registry ∧ r.keyword = query ∧ r.subreddit = sub ∧
        ∃ p ∈ l, inWindowP p ∧ r = toPostRow sub query p) ∧
      (new.map PostRow.post_id).Nodup := by
  induction l with
  | nil =>
    intro acc
    exact ⟨[], by simp [processPosts], by simp [processPosts], by simp, by simp⟩
  | cons p ps ih =>
    intro acc
    rw [processPosts]
    by_cases hmem : p.id ∈ acc.registry
    · rw [stepPost_skip_mem cl sub query acc p hmem]
      obtain ⟨new, h1, h2, h3, h4⟩ := ih acc
      refine ⟨new, h1, h2, ?_, h4⟩
      intro r hr
      obtain ⟨g1, g2, g3, q, hq, g4, g5⟩ := h3 r hr
      exact ⟨g1, g2, g3, q, List.mem_cons_of_mem p hq, g4, g5⟩
    · by_cases hwin : p.created_utc < startTimestamp ∨ endTimestamp < p.created_utc
      · rw [stepPost_skip_win cl sub query acc p hmem hwin]
        obtain ⟨new, h1, h2, h3, h4⟩ := ih acc
        refine ⟨new, h1, h2, ?_, h4⟩
        intro r hr
        obtain ⟨g1, g2, g3, q, hq, g4, g5⟩ := h3 r hr
        exact ⟨g1, g2, g3, q, List.mem_cons_of_mem p hq, g4, g5⟩
      · have hw : inWindowP p := hwin
        rw [stepPost_accept cl sub query acc p hmem hw]
        obtain ⟨new, h1, h2, h3, h4⟩ :=
          ih { registry := p.id :: acc.registry
             , posts := acc.posts ++ [toPostRow sub query p]
             , comments := acc.comments ++ fetchComments cl p }
        have hnotin : p.id ∉ new.map PostRow.post_id := by
          intro hcon
          obtain ⟨r, hr, hrid⟩ := List.mem_map.mp hcon
          obtain ⟨g1, _, _, _⟩ := h3 r hr
          rw [hrid] at g1
          exact g1 (List.mem_cons_self p.id acc.registry)
        refine ⟨toPostRow sub query p :: new, ?_, ?_, ?_, ?_⟩
        · rw [h1]
          simp
        · intro x
          rw [h2 x]
          simp only [List.mem_cons, List.map_cons, toPostRow]
          tauto
        · intro r hr
          rcases List.mem_cons.mp hr with rfl | hr
        
          · exact ⟨hmem, rfl, rfl, p, List.mem_cons_self p ps, hw, rfl⟩
          · obtain ⟨g1, g2, g3, q, hq, g4, g5⟩ := h3 r hr
            have : r.post_id ∉ acc.registry := fun hc =>
              g1 (List.mem_cons_of_mem p.id hc)
            exact ⟨this, g2, g3, q, List.mem_cons_of_mem p hq, g4, g5⟩
        · simp only [List.map_cons, List.nodup_cons]
          exact ⟨by simpa [toPostRow] using hnotin, h4⟩

/-! ### Lemmas: batches of a single pair -/

theorem pairBatch_registry_iff (cfg : Config) (sub query : String) (penv : PairEnv)
    (reg : List String) (x : String) :
    x ∈ (pairBatch cfg sub query penv reg).registry ↔
      x ∈ reg ∨ ∃ p ∈ consumedPosts cfg penv, inWindowP p ∧ x = p.id := by
  unfold pairBatch
  exact processPosts_registry_iff cfg.commentLimitPerPost sub query
    (consumedPosts cfg penv) { registry := reg, posts := [], comments := [] } x

theorem pairBatch_registry_mono (cfg : Config) (sub query : String) (penv : PairEnv)
    (reg : List String) (x : String) (h : x ∈ reg) :
    x ∈ (pairBatch cfg sub query penv reg).registry :=
  (pairBatch_registry_iff cfg sub query penv reg x).mpr (Or.inl h)

theorem pairBatch_posts_spec (cfg : Config) (sub query : String) (penv : PairEnv)
    (reg : List String) :
    (∀ x, x ∈ (pairBatch cfg sub query penv reg).registry ↔
        x ∈ reg ∨ x ∈ (pairBatch cfg sub query penv reg).posts.map PostRow.post_id) ∧
    (∀ r ∈ (pairBatch cfg sub query penv reg).posts,
        r.post_id ∉ reg ∧ r.keyword = query ∧ r.subreddit = sub ∧
        ∃ p ∈ consumedPosts cfg penv, inWindowP p ∧ r = toPostRow sub query p) ∧
    ((pairBatch cfg sub query penv reg).posts.map PostRow.post_id).Nodup := by
  obtain ⟨new, h1, h2, h3, h4⟩ :=
    processPosts_main cfg.commentLimitPerPost sub query (consumedPosts cfg penv)
      { registry := reg, posts := [], comments := [] }
  have hposts : (pairBatch cfg sub query penv reg).posts = new := by
    unfold pairBatch
    rw [h1]
    simp
  refine ⟨?_, ?_, ?_⟩
  · intro x
    rw [hposts]
    exact h2 x
  · intro r hr
    rw [hposts] at hr
    exact h3 r hr
  · rw [hposts]
    exact h4

theorem pairBatch_accept_or_known (cfg : Config) (sub query : String) (penv : PairEnv)
    (reg : List String) (p : Post) (hp : p ∈ consumedPosts cfg penv) (hw : inWindowP p) :
    p.id ∈ reg ∨ p.id ∈ (pairBatch cfg sub query penv reg).posts.map PostRow.post_id := by
  have hreg : p.id ∈ (pairBatch cfg sub query penv reg).registry :=
    (pairBatch_registry_iff cfg sub query penv reg p.id).mpr (Or.inr ⟨p, hp, hw, rfl⟩)
  exact ((pairBatch_posts_spec cfg sub query penv reg).1 p.id).mp hreg

/-! ### Lemmas: the pair loop -/

theorem runPair_registry (cfg : Config) (env : String → String → PairEnv)
    (st : RunState) (pr : String × String) :
    (runPair cfg env st pr).registry =
      (pairBatch cfg pr.1 pr.2 (env pr.1 pr.2) st.registry).registry := by
  unfold runPair
  by_cases h : pairFailed (env pr.1 pr.2)
  · simp [h]
  · simp [h]

theorem runPair_postsRows (cfg : Config) (env : String → String → PairEnv)
    (st : RunState) (pr : String × String) :
    fileRows (runPair cfg env st pr).postsFile =
      fileRows st.postsFile ++ flushedPosts cfg pr.1 pr.2 (env pr.1 pr.2) st.registry := by
  unfold runPair flushedPosts
  by_cases h : pairFailed (env pr.1 pr.2)
  · simp [h]
  · simp only [h, Bool.false_eq_true, if_neg, if_false, not_false_eq_true]
    by_cases he : (pairBatch cfg pr.1 pr.2 (env pr.1 pr.2) st.registry).posts.isEmpty
    · simp [he, List.isEmpty_iff.mp he]
    · simp [he, fileRows_saveData]

theorem runPair_commentsRows (cfg : Config) (env : String → String → PairEnv)
    (st : RunState) (pr : String × String) :
    fileRows (runPair cfg env st pr).commentsFile =
      fileRows st.commentsFile ++ flushedComments cfg pr.1 pr.2 (env pr.1 pr.2) st.registry := by
  unfold runPair flushedComments
  by_cases h : pairFailed (env pr.1 pr.2)
  · simp [h]
  · simp only [h, Bool.false_eq_true, if_neg, if_false, not_false_eq_true]
    by_cases he : (pairBatch cfg pr.1 pr.2 (env pr.1 pr.2) st.registry).comments.isEmpty
    · simp [he, List.isEmpty_iff.mp he]
    · simp [he, fileRows_saveData]

theorem runPair_events (cfg : Config) (env : String → String → PairEnv)
    (st : RunState) (pr : String × String) :
    (runPair cfg env st pr).events =
      st.events ++ [pairEvent (env pr.1 pr.2) pr] := by
  unfold runPair pairEvent
  by_cases h : pairFailed (env pr.1 pr.2)
  · simp [h]
  · simp [h]

theorem runPairs_registry (cfg : Config) (env : String → String → PairEnv)
    (prs : List (String × String)) :
    ∀ st : RunState,
      (runPairs cfg env st prs).registry = regAfterPairs cfg env prs st.registry := by
  induction prs with
  | nil => intro st; rfl
  | cons pr rest ih =>
    intro st
    rw [runPairs, regAfterPairs, ih]
    rw [runPair_registry]

theorem runPairs_postsRows (cfg : Config) (env : String → String → PairEnv)
    (prs : List (String × String)) :
    ∀ st : RunState,
      fileRows (runPairs cfg env st prs).postsFile =
        fileRows st.postsFile ++ flushedPostsAll cfg env prs st.registry := by
  induction prs with
  | nil => intro st; simp [runPairs, flushedPostsAll]
  | cons pr rest ih =>
    intro st
    rw [runPairs, flushedPostsAll, ih, runPair_postsRows, runPair_registry,
      List.append_assoc]

theorem runPairs_commentsRows (cfg : Config) (env : String → String → PairEnv)
    (prs : List (String × String)) :
    ∀ st : RunState,
      fileRows (runPairs cfg env st prs).commentsFile =
        fileRows st.commentsFile ++ flushedCommentsAll cfg env prs st.registry := by
  induction prs with
  | nil => intro st; simp [runPairs, flushedCommentsAll]
  | cons pr rest ih =>
    intro st
    rw [runPairs, flushedCommentsAll, ih, runPair_commentsRows, runPair_registry,
      List.append_assoc]

theorem runPairs_events (cfg : Config) (env : String → String → PairEnv)
    (prs : List (String × String)) :
    ∀ st : RunState,
      (runPairs cfg env st prs).events =
        st.events ++ prs.map (fun pr => pairEvent (env pr.1 pr.2) pr) := by
  induction prs with
  | nil => intro st; simp [runPairs]
  | cons pr rest ih =>
    intro st
    rw [runPairs, List.map_cons, ih, runPair_events, List.append_assoc]
    rfl

/-! ### Lemmas: decomposing a run at a pair -/

theorem regAfterPairs_append (cfg : Config) (env : String → String → PairEnv)
    (a b : List (String × String)) :
    ∀ reg, regAfterPairs cfg env (a ++ b) reg =
      regAfterPairs cfg env b (regAfterPairs cfg env a reg) := by
  induction a with
  | nil => intro reg; rfl
  | cons pr rest ih =>
    intro reg
    rw [List.cons_append, regAfterPairs, regAfterPairs, ih]

theorem flushedPostsAll_append (cfg : Config) (env : String → String → PairEnv)
    (a b : List (String × String)) :
    ∀ reg, flushedPostsAll cfg env (a ++ b) reg =
      flushedPostsAll cfg env a reg ++
        flushedPostsAll cfg env b (regAfterPairs cfg env a reg) := by
  induction a with
  | nil => intro reg; simp [flushedPostsAll, regAfterPairs]
  | cons pr rest ih =>
    intro reg
    rw [List.cons_append, flushedPostsAll, flushedPostsAll, regAfterPairs, ih,
      List.append_assoc]

theorem mem_regAfterPairs_mono (cfg : Config) (env : String → String → PairEnv)
    (prs : List (String × String)) :
    ∀ reg x, x ∈ reg → x ∈ regAfterPairs cfg env prs reg := by
  induction prs with
  | nil => intro reg x h; exact h
  | cons pr rest ih =>
    intro reg x h
    rw [regAfterPairs]
    exact ih _ x (pairBatch_registry_mono cfg pr.1 pr.2 (env pr.1 pr.2) reg x h)

theorem flushedPostsAll_ids_not_reg (cfg : Config) (env : String → String → PairEnv)
    (prs : List (String × String)) :
    ∀ reg x, x ∈ (flushedPostsAll cfg env prs reg).map PostRow.post_id → x ∉ reg := by
  induction prs with
  | nil => intro reg x h; simp [flushedPostsAll] at h
  | cons pr rest ih =>
    intro reg x h
    rw [flushedPostsAll, List.map_append, List.mem_append] at h
    rcases h with h | h
    · obtain ⟨r, hr, hrid⟩ := List.mem_map.mp h
      unfold flushedPosts at hr
      by_cases hf : pairFailed (env pr.1 pr.2)
      · simp [hf] at hr
      · simp only [hf, Bool.false_eq_true, if_neg, if_false, not_false_eq_true] at hr
        obtain ⟨g1, _, _, _⟩ := ((pairBatch_posts_spec cfg pr.1 pr.2 (env pr.1 pr.2) reg).2.1) r hr
        rw [hrid] at g1
        exact g1
    · intro hx
      exact ih _ x h (pairBatch_registry_mono cfg pr.1 pr.2 (env pr.1 pr.2) reg x hx)

theorem flushedPostsAll_ids_sub_regAfter (cfg : Config) (env : String → String → PairEnv)
    (prs : List (String × String)) :
    ∀ reg x, x ∈ (flushedPostsAll cfg env prs reg).map PostRow.post_id →
      x ∈ regAfterPairs cfg env prs reg := by
  induction prs with
  | nil => intro reg x h; simp [flushedPostsAll] at h
  | cons pr rest ih =>
    intro reg x h
    rw [flushedPostsAll, List.map_append, List.mem_append] at h
    rw [regAfterPairs]
    rcases h with h | h
    · obtain ⟨r, hr, hrid⟩ := List.mem_map.mp h
      unfold flushedPosts at hr
      by_cases hf : pairFailed (env pr.1 pr.2)
      · simp [hf] at hr
      · simp only [hf, Bool.false_eq_true, if_neg, if_false, not_false_eq_true] at hr
        have hmem : r.post_id ∈
            (pairBatch cfg pr.1 pr.2 (env pr.1 pr.2) reg).posts.map PostRow.post_id :=
          List.mem_map.mpr ⟨r, hr, rfl⟩
        have : x ∈ (pairBatch cfg pr.1 pr.2 (env pr.1 pr.2) reg).registry := by
          rw [hrid] at hmem
          exact ((pairBatch_posts_spec cfg pr.1 pr.2 (env pr.1 pr.2) reg).1 x).mpr
            (Or.inr hmem)
        exact mem_regAfterPairs_mono cfg env rest _ x this
    · exact ih _ x h

theorem flushedPostsAll_nodup (cfg : Config) (env : String → String → PairEnv)
    (prs : List (String × String)) :
    ∀ reg, ((flushedPostsAll cfg env prs reg).map PostRow.post_id).Nodup := by
  induction prs with
  | nil => intro reg; simp [flushedPostsAll]
  | cons pr rest ih =>
    intro reg
    rw [flushedPostsAll, List.map_append]
    rw [List.nodup_append]
    refine ⟨?_, ih _, ?_⟩
    · unfold flushedPosts
      by_cases hf : pairFailed (env pr.1 pr.2)
      · simp [hf]
      · simp only [hf, Bool.false_eq_true, if_neg, if_false, not_false_eq_true]
        exact (pairBatch_posts_spec cfg pr.1 pr.2 (env pr.1 pr.2) reg).2.2
    · intro x hx hx2
      have hxreg : x ∈ (pairBatch cfg pr.1 pr.2 (env pr.1 pr.2) reg).registry := by
        obtain ⟨r, hr, hrid⟩ := List.mem_map.mp hx
        unfold flushedPosts at hr
        by_cases hf : pairFailed (env pr.1 pr.2)
        · simp [hf] at hr
        · simp only [hf, Bool.false_eq_true, if_neg, if_false, not_false_eq_true] at hr
          exact ((pairBatch_posts_spec cfg pr.1 pr.2 (env pr.1 pr.2) reg).1 x).mpr
            (Or.inr (List.mem_map.mpr ⟨r, hr, hrid⟩))
      exact flushedPostsAll_ids_not_reg cfg env rest _ x hx2 hxreg

/-! ### Lemmas: a run whose flushes are already known appends nothing -/

theorem runPairs_postsFile_fixed (cfg : Config) (env : String → String → PairEnv)
    (prs : List (String × String)) :
    ∀ (reg1 : List String) (st2 : RunState),
      (∀ x ∈ reg1, x ∈ st2.registry) →
      (∀ x ∈ (flushedPostsAll cfg env prs reg1).map PostRow.post_id, x ∈ st2.registry) →
      (runPairs cfg env st2 prs).postsFile = st2.postsFile := by
  induction prs with
  | nil => intro reg1 st2 _ _; rfl
  | cons pr rest ih =>
    intro reg1 st2 h1 h2
    rw [runPairs]
    have hflhead : ∀ x, x ∈ (flushedPosts cfg pr.1 pr.2 (env pr.1 pr.2) reg1).map
        PostRow.post_id → x ∈ st2.registry := by
      intro x hx
      apply h2
      rw [flushedPostsAll, List.map_append, List.mem_append]
      exact Or.inl hx
    have hfltail : ∀ x, x ∈ (flushedPostsAll cfg env rest
        (pairBatch cfg pr.1 pr.2 (env pr.1 pr.2) reg1).registry).map
        PostRow.post_id → x ∈ st2.registry := by
      intro x hx
      apply h2
      rw [flushedPostsAll, List.map_append, List.mem_append]
      exact Or.inr hx
    by_cases hf : pairFailed (env pr.1 pr.2)
    · have hpf : (runPair cfg env st2 pr).postsFile = st2.postsFile := by
        unfold runPair
        simp [hf]
      have hreg : (runPair cfg env st2 pr).registry =
          (pairBatch cfg pr.1 pr.2 (env pr.1 pr.2) st2.registry).registry :=
        runPair_registry cfg env st2 pr
      have := ih (pairBatch cfg pr.1 pr.2 (env pr.1 pr.2) reg1).registry
        (runPair cfg env st2 pr)
        (by
          intro x hx
          rw [hreg]
          rcases (pairBatch_registry_iff cfg pr.1 pr.2 (env pr.1 pr.2) reg1 x).mp hx with
            hx | ⟨p, hp, hw, rfl⟩
          · exact pairBatch_registry_mono cfg pr.1 pr.2 (env pr.1 pr.2) st2.registry x
              (h1 x hx)
          · exact (pairBatch_registry_iff cfg pr.1 pr.2 (env pr.1 pr.2) st2.registry
              p.id).mpr (Or.inr ⟨p, hp, hw, rfl⟩))
        (by
          intro x hx
          rw [hreg]
          exact pairBatch_registry_mono cfg pr.1 pr.2 (env pr.1 pr.2) st2.registry x
            (hfltail x hx))
      rw [this, hpf]
    · have hconst : pairBatch cfg pr.1 pr.2 (env pr.1 pr.2) st2.registry =
          { registry := st2.registry, posts := [], comments := [] } := by
        unfold pairBatch
        apply processPosts_const
        intro p hp hw
        rcases pairBatch_accept_or_known cfg pr.1 pr.2 (env pr.1 pr.2) reg1 p hp hw with
          hin | hin
        · exact h1 _ hin
        · apply hflhead
          unfold flushedPosts
          simp only [hf, Bool.false_eq_true, if_neg, if_false, not_false_eq_true]
          exact hin
      have hrp : runPair cfg env st2 pr =
          { registry := st2.registry
          , postsFile := st2.postsFile
          , commentsFile := st2.commentsFile
          , events := st2.events ++ [RunEvent.sleep] } := by
        unfold runPair
        simp [hf, hconst]
      rw [hrp]
      have := ih (pairBatch cfg pr.1 pr.2 (env pr.1 pr.2) reg1).registry
        { registry := st2.registry
        , postsFile := st2.postsFile
        , commentsFile := st2.commentsFile
        , events := st2.events ++ [RunEvent.sleep] }
        (by
          intro x hx
          rcases (pairBatch_registry_iff cfg pr.1 pr.2 (env pr.1 pr.2) reg1 x).mp hx with
            hx | ⟨p, hp, hw, rfl⟩
          · exact h1 x hx
          · rcases pairBatch_accept_or_known cfg pr.1 pr.2 (env pr.1 pr.2) reg1 p hp hw with
              hin | hin
            · exact h1 _ hin
            · apply hflhead
              unfold flushedPosts
              simp only [hf, Bool.false_eq_true, if_neg, if_false, not_false_eq_true]
              exact hin)
        (fun x hx => hfltail x hx)
      rw [this]

/-! ### The claims -/

/-- C2: the resolved window is the closed interval from the anchor shifted
back five months to the anchor shifted forward two months, both at midnight
UTC; for anchor 2024-06-04 this is [2024-01-04, 2024-08-04], and the local
re-validation filter rejects a candidate created 2023-12-31, accepts one
created 2024-01-04T00:00:00Z, and rejects one created 2024-08-04T00:00:01Z. -/
theorem claim_C2 :
    startDate = { year := 2024, month := 1, day := 4 } ∧
    endDate = { year := 2024, month := 8, day := 4 } ∧
    startTimestamp = tsUtc 2024 1 4 0 0 0 ∧
    endTimestamp = tsUtc 2024 8 4 0 0 0 ∧
    ¬ inWindowP (testPost "a" (tsUtc 2023 12 31 23 59 59)) ∧
    inWindowP (testPost "b" (tsUtc 2024 1 4 0 0 0)) ∧
    ¬ inWindowP (testPost "c" (tsUtc 2024 8 4 0 0 1)) ∧
    (stepPost 10 "s" "q" accE (testPost "a" (tsUtc 2023 12 31 23 59 59))).posts = [] ∧
    (stepPost 10 "s" "q" accE (testPost "b" (tsUtc 2024 1 4 0 0 0))).posts =
      [toPostRow "s" "q" (testPost "b" (tsUtc 2024 1 4 0 0 0))] ∧
    (stepPost 10 "s" "q" accE (testPost "c" (tsUtc 2024 8 4 0 0 1))).posts = [] := by
  refine ⟨by decide, by decide, by decide, by decide, by decide, by decide, by decide,
    ?_, ?_, ?_⟩
  · rw [stepPost_skip_win 10 "s" "q" accE _ (by decide) (by decide)]
    rfl
  · rw [stepPost_accept 10 "s" "q" accE _ (by decide) (by decide)]
    simp [accE]
  · rw [stepPost_skip_win 10 "s" "q" accE _ (by decide) (by decide)]
    rfl

/-- C5: a failure while expanding or retrieving a thread's replies yields an
empty reply list from the harvester, and the thread record itself is still
appended to the pair's post batch with no comment records. -/
theorem claim_C5 (cl : Nat) (sub query : String) (acc : PairAcc) (post : Post)
    (h : post.commentsFail = true) :
    fetchComments cl post = [] ∧
    (post.id ∉ acc.registry → inWindowP post →
      (stepPost cl sub query acc post).posts = acc.posts ++ [toPostRow sub query post] ∧
      (stepPost cl sub query acc post).comments = acc.comments) := by
  have hfc : fetchComments cl post = [] := by
    unfold fetchComments
    simp [h]
  refine ⟨hfc, fun h1 h2 => ?_⟩
  rw [stepPost_accept cl sub query acc post h1 h2]
  exact ⟨rfl, by simp [hfc]⟩

/-- Witness for C5 at a concrete failing thread. -/
theorem claim_C5_witness :
    fetchComments 10 postFailC = [] ∧
    (stepPost 10 "s" "q" accE postFailC).posts = accE.posts ++ [toPostRow "s" "q" postFailC] ∧
    (stepPost 10 "s" "q" accE postFailC).comments = accE.comments := by
  obtain ⟨h1, h2⟩ := claim_C5 10 "s" "q" accE postFailC rfl
  obtain ⟨h3, h4⟩ := h2 (by simp [accE]) (by decide)
  exact ⟨h1, h3, h4⟩

/-- C6: on a healthy thread the harvester first fully expands every "load
more replies" placeholder and only then truncates: it returns exactly the
first N entries of the flattened expanded forest, so the number of records
is min N (total replies, hidden ones included). -/
theorem claim_C6 (cl : Nat) (post : Post) (h : post.commentsFail = false) :
    fetchComments cl post =
      ((flattenForest (expandForest post.replies)).take cl).map (mkCommentRow post) ∧
    (flattenForest (expandForest post.replies)).length = countReplies post.replies ∧
    (fetchComments cl post).length = min cl (countReplies post.replies) := by
  have h1 : fetchComments cl post =
      ((flattenForest (expandForest post.replies)).take cl).map (mkCommentRow post) := by
    unfold fetchComments
    simp [h]
  refine ⟨h1, ?_, ?_⟩
  · rw [flattenForest_length, forestSize_expandForest]
  · rw [h1]
    simp [List.length_take, flattenForest_length, forestSize_expandForest]

/-- Witness for C6: a thread with 50 replies (10 of them behind a
placeholder) and the configured ceiling 10 yields exactly 10 records. -/
theorem claim_C6_witness :
    (fetchComments CONFIG.commentLimitPerPost post50).length =
      min CONFIG.commentLimitPerPost (countReplies post50.replies) ∧
    countReplies post50.replies = 50 ∧
    (fetchComments CONFIG.commentLimitPerPost post50).length = 10 := by
  have h := (claim_C6 CONFIG.commentLimitPerPost post50 rfl).2.2
  have hc : countReplies post50.replies = 50 := countReplies_bigForest
  refine ⟨h, hc, ?_⟩
  rw [h, hc]
  decide

/-- C7: the persistence operation writes the header exactly when the target
does not yet exist, appends without a header otherwise, is a no-op on an
empty batch, and two successive non-empty batches on a fresh path give one
header line followed by both batches' rows in arrival order. -/
theorem claim_C7 (α : Type) (d1 d2 : List α) (f : CsvFile α) (l : List (CsvLine α))
    (h1 : d1 ≠ []) (h2 : d2 ≠ []) :
    saveData ([] : List α) f = f ∧
    saveData d1 none = some (CsvLine.header :: d1.map CsvLine.row) ∧
    saveData d1 (some l) = some (l ++ d1.map CsvLine.row) ∧
    saveData d2 (saveData d1 none) =
      some (CsvLine.header :: (d1.map CsvLine.row ++ d2.map CsvLine.row)) := by
  have e1 : ¬ d1.isEmpty = true := fun hc => h1 (List.isEmpty_iff.mp hc)
  have e2 : ¬ d2.isEmpty = true := fun hc => h2 (List.isEmpty_iff.mp hc)
  refine ⟨by unfold saveData; simp, ?_, ?_, ?_⟩
  · unfold saveData
    simp [e1]
  · unfold saveData
    simp [e1]
  · unfold saveData
    simp [e1, e2]

/-- Witness for C7 on concrete batches. -/
theorem claim_C7_witness :
    saveData ([] : List Nat) none = none ∧
    saveData [1] (none : CsvFile Nat) = some [CsvLine.header, CsvLine.row 1] ∧
    saveData [1] (some [(CsvLine.header : CsvLine Nat)]) =
      some [CsvLine.header, CsvLine.row 1] ∧
    saveData [2] (saveData [1] (none : CsvFile Nat)) =
      some [CsvLine.header, CsvLine.row 1, CsvLine.row 2] := by
  obtain ⟨g1, g2, g3, g4⟩ :=
    claim_C7 Nat [1] [2] none [CsvLine.header] (by simp) (by simp)
  exact ⟨g1, g2, g3, g4⟩

/-- C8: every comment record the harvester produces carries the parent
thread's creation instant in `created_utc` and the parent thread's
identifier in `post_id`. -/
theorem claim_C8 (cl : Nat) (post : Post) (c : CommentRow)
    (hc : c ∈ fetchComments cl post) :
    c.created_utc = formatUtc post.created_utc ∧ c.post_id = post.id := by
  unfold fetchComments at hc
  by_cases hf : post.commentsFail = true
  · simp [hf] at hc
  · simp only [hf, if_neg, if_false, not_false_eq_true, Bool.false_eq_true] at hc
    obtain ⟨d, _, rfl⟩ := List.mem_map.mp hc
    exact ⟨rfl, rfl⟩

/-- Witness for C8 at a concrete thread with one reply. -/
theorem claim_C8_witness :
    (mkCommentRow postOneReply
        { id := "c1", body := "hello", score := 2, author := none }).created_utc =
      formatUtc postOneReply.created_utc ∧
    (mkCommentRow postOneReply
        { id := "c1", body := "hello", score := 2, author := none }).post_id =
      postOneReply.id :=
  claim_C8 10 postOneReply _
    (by
      have hrep : postOneReply.replies =
          [ReplyNode.comment { id := "c1", body := "hello", score := 2, author := none } []] :=
        rfl
      have hok : postOneReply.commentsFail = false := rfl
      unfold fetchComments
      rw [hok, hrep]
      simp [expandForest, flattenForest])

/-- C9 counterexample: a run over a single pair whose search raises processes
that pair (its error is logged) yet never applies the inter-pair courtesy
delay — `time.sleep(2)` sits inside the `try` block and is skipped by the
`except` path, refuting "every pair, whether it succeeded or failed". -/
theorem claim_C9_counterexample :
    (allPairs cfgOnePair).length = 1 ∧
    RunEvent.errorLog "A" "Q" ∈ (runScraper cfgOnePair envFailAll none none).events ∧
    RunEvent.sleep ∉ (runScraper cfgOnePair envFailAll none none).events := by
  refine ⟨rfl, by decide, by decide⟩

/-- C9 (amended): the fixed inter-pair delay runs after each pair that
completes without an exception; a pair that raises logs the error and skips
the delay. -/
theorem claim_C9 (cfg : Config) (env : String → String → PairEnv) (st : RunState)
    (pr : String × String) :
    (pairFailed (env pr.1 pr.2) = false →
      (runPair cfg env st pr).events = st.events ++ [RunEvent.sleep]) ∧
    (pairFailed (env pr.1 pr.2) = true →
      (runPair cfg env st pr).events = st.events ++ [RunEvent.errorLog pr.1 pr.2]) := by
  constructor <;> intro h <;> rw [runPair_events] <;> unfold pairEvent <;> simp [h]

/-- Witness for C9 (amended) at a succeeding and at a failing pair. -/
theorem claim_C9_witness :
    (runPair cfgOnePair envOk stE ("A", "Q")).events = stE.events ++ [RunEvent.sleep] ∧
    (runPair cfgOnePair envFailAll stE ("A", "Q")).events =
      stE.events ++ [RunEvent.errorLog "A" "Q"] :=
  ⟨(claim_C9 cfgOnePair envOk stE ("A", "Q")).1 rfl,
   (claim_C9 cfgOnePair envFailAll stE ("A", "Q")).2 rfl⟩

/-- C1: within one run a thread identifier is appended to the thread output
at most once: the appended rows carry pairwise distinct identifiers, none of
them already present in the seeded registry (the identifiers of the existing
output), and every row flushed by a pair carries that pair's query string and
an identifier no earlier pair had accepted — the query of its first
acceptance. -/
theorem claim_C1 (cfg : Config) (env : String → String → PairEnv)
    (f0 : CsvFile PostRow) (c0 : CsvFile CommentRow) :
    ((flushedPostsAll cfg env (allPairs cfg) (loadProcessedIds f0)).map PostRow.post_id).Nodup ∧
    fileRows (runScraper cfg env f0 c0).postsFile =
      fileRows f0 ++ flushedPostsAll cfg env (allPairs cfg) (loadProcessedIds f0) ∧
    (∀ x ∈ (flushedPostsAll cfg env (allPairs cfg) (loadProcessedIds f0)).map PostRow.post_id,
      x ∉ (fileRows f0).map PostRow.post_id) ∧
    (∀ ps1 pr ps2, allPairs cfg = ps1 ++ pr :: ps2 →
      ∀ r ∈ flushedPosts cfg pr.1 pr.2 (env pr.1 pr.2)
          (regAfterPairs cfg env ps1 (loadProcessedIds f0)),
        r.keyword = pr.2 ∧ r.subreddit = pr.1 ∧
          r.post_id ∉ regAfterPairs cfg env ps1 (loadProcessedIds f0)) := by
  refine ⟨flushedPostsAll_nodup cfg env (allPairs cfg) _, ?_, ?_, ?_⟩
  · unfold runScraper scrapeData
    rw [runPairs_postsRows]
  · intro x hx hxf0
    exact flushedPostsAll_ids_not_reg cfg env (allPairs cfg) _ x hx
      ((mem_loadProcessedIds f0 x).mpr hxf0)
  · intro ps1 pr ps2 _ r hr
    unfold flushedPosts at hr
    by_cases hf : pairFailed (env pr.1 pr.2)
    · simp [hf] at hr
    · simp only [hf, Bool.false_eq_true, if_neg, if_false, not_false_eq_true] at hr
      obtain ⟨g1, g2, g3, _⟩ :=
        (pairBatch_posts_spec cfg pr.1 pr.2 (env pr.1 pr.2)
          (regAfterPairs cfg env ps1 (loadProcessedIds f0))).2.1 r hr
      exact ⟨g2, g3, g1⟩

/-- Witness for C1: one community, two queries both matching the same
thread; the flushed rows carry distinct identifiers and the row flushed by
the first pair is tagged with the first query. -/
theorem claim_C1_witness :
    ((flushedPostsAll cfgTwoQueries envSameX (allPairs cfgTwoQueries)
        (loadProcessedIds none)).map PostRow.post_id).Nodup ∧
    ((toPostRow "A" "Q1" postX).keyword = "Q1" ∧
      (toPostRow "A" "Q1" postX).subreddit = "A" ∧
      (toPostRow "A" "Q1" postX).post_id ∉
        regAfterPairs cfgTwoQueries envSameX [] (loadProcessedIds none)) := by
  have h := claim_C1 cfgTwoQueries envSameX none none
  exact ⟨h.1,
    h.2.2.2 [] ("A", "Q1") [("A", "Q2")] rfl (toPostRow "A" "Q1" postX) (by decide)⟩

/-- C4: an exception while processing one pair is caught at the pair
boundary: every configured pair contributes exactly one driver event in
order, the output files are exactly the initial contents followed by each
pair's flushed batches, and a failing pair flushes neither of its batches
while its community and query are logged. -/
theorem claim_C4 (cfg : Config) (env : String → String → PairEnv)
    (f0 : CsvFile PostRow) (c0 : CsvFile CommentRow) :
    (runScraper cfg env f0 c0).events =
      (allPairs cfg).map (fun pr => pairEvent (env pr.1 pr.2) pr) ∧
    fileRows (runScraper cfg env f0 c0).postsFile =
      fileRows f0 ++ flushedPostsAll cfg env (allPairs cfg) (loadProcessedIds f0) ∧
    fileRows (runScraper cfg env f0 c0).commentsFile =
      fileRows c0 ++ flushedCommentsAll cfg env (allPairs cfg) (loadProcessedIds f0) ∧
    (∀ pr ∈ allPairs cfg, pairFailed (env pr.1 pr.2) = true →
      (∀ reg, flushedPosts cfg pr.1 pr.2 (env pr.1 pr.2) reg = [] ∧
        flushedComments cfg pr.1 pr.2 (env pr.1 pr.2) reg = []) ∧
      RunEvent.errorLog pr.1 pr.2 ∈ (runScraper cfg env f0 c0).events) := by
  have hev : (runScraper cfg env f0 c0).events =
      (allPairs cfg).map (fun pr => pairEvent (env pr.1 pr.2) pr) := by
    unfold runScraper scrapeData
    rw [runPairs_events]
    rfl
  refine ⟨hev, ?_, ?_, ?_⟩
  · unfold runScraper scrapeData
    rw [runPairs_postsRows]
  · unfold runScraper scrapeData
    rw [runPairs_commentsRows]
  · intro pr hpr hf
    refine ⟨fun reg => ?_, ?_⟩
    · unfold flushedPosts flushedComments
      simp [hf]
    · rw [hev]
      exact List.mem_map.mpr ⟨pr, hpr, by unfold pairEvent; simp [hf]⟩

/-- Witness for C4: with the pair (A, Q1) raising, its batches are dropped
and its error is logged, while the pair (A, Q2) still persists its result. -/
theorem claim_C4_witness :
    RunEvent.errorLog "A" "Q1" ∈ (runScraper cfgTwoQueries envOneFails none none).events ∧
    flushedPosts cfgTwoQueries "A" "Q1" (envOneFails "A" "Q1") [] = [] ∧
    fileRows (runScraper cfgTwoQueries envOneFails none none).postsFile =
      flushedPostsAll cfgTwoQueries envOneFails (allPairs cfgTwoQueries)
        (loadProcessedIds none) := by
  have h := claim_C4 cfgTwoQueries envOneFails none none
  have h4 := h.2.2.2 ("A", "Q1") (by decide) (by decide)
  exact ⟨h4.2, (h4.1 []).1, h.2.1⟩

/-- C10: when a pair raises after accepting some threads, those identifiers
stay in the in-memory registry for the rest of the run: they are in the
final registry, no later pair flushes them, no pair of the run flushes them
at all, and (unless already present in the initial output) they are absent
from the final output — so only a later run, reseeded from the output file,
can collect them. -/
theorem claim_C10 (cfg : Config) (env : String → String → PairEnv)
    (f0 : CsvFile PostRow) (c0 : CsvFile CommentRow)
    (ps1 ps2 ps3 : List (String × String)) (p1 p2 : String × String) (X : String)
    (hdec : allPairs cfg = ps1 ++ p1 :: ps2 ++ p2 :: ps3)
    (hfail : pairFailed (env p1.1 p1.2) = true)
    (hX : X ∈ ((pairBatch cfg p1.1 p1.2 (env p1.1 p1.2)
        (regAfterPairs cfg env ps1 (loadProcessedIds f0))).posts).map PostRow.post_id) :
    X ∈ (runScraper cfg env f0 c0).registry ∧
    X ∉ (flushedPosts cfg p2.1 p2.2 (env p2.1 p2.2)
        (regAfterPairs cfg env (ps1 ++ p1 :: ps2) (loadProcessedIds f0))).map
        PostRow.post_id ∧
    X ∉ (flushedPostsAll cfg env (allPairs cfg) (loadProcessedIds f0)).map
        PostRow.post_id ∧
    (X ∉ (fileRows f0).map PostRow.post_id →
      X ∉ (fileRows (runScraper cfg env f0 c0).postsFile).map PostRow.post_id) := by
  set reg0 := loadProcessedIds f0 with hreg0
  set reg1 := regAfterPairs cfg env ps1 reg0 with hreg1
  obtain ⟨r, hr, hrid⟩ := List.mem_map.mp hX
  have hXnotreg1 : X ∉ reg1 := by
    obtain ⟨g1, _, _, _⟩ :=
      (pairBatch_posts_spec cfg p1.1 p1.2 (env p1.1 p1.2) reg1).2.1 r hr
    rw [hrid] at g1
    exact g1
  have hXregA : X ∈ (pairBatch cfg p1.1 p1.2 (env p1.1 p1.2) reg1).registry :=
    ((pairBatch_posts_spec cfg p1.1 p1.2 (env p1.1 p1.2) reg1).1 X).mpr (Or.inr hX)
  have hsplit1 : allPairs cfg = (ps1 ++ [p1]) ++ (ps2 ++ p2 :: ps3) := by
    rw [hdec]
    simp
  have hregA : regAfterPairs cfg env (ps1 ++ [p1]) reg0 =
      (pairBatch cfg p1.1 p1.2 (env p1.1 p1.2) reg1).registry := by
    rw [regAfterPairs_append]
    rfl
  have hfreg : (runScraper cfg env f0 c0).registry =
      regAfterPairs cfg env (allPairs cfg) reg0 := by
    unfold runScraper scrapeData
    rw [runPairs_registry]
  have hfinalreg : X ∈ (runScraper cfg env f0 c0).registry := by
    rw [hfreg, hsplit1, regAfterPairs_append, hregA]
    exact mem_regAfterPairs_mono cfg env _ _ X hXregA
  have hreg2 : regAfterPairs cfg env (ps1 ++ p1 :: ps2) reg0 =
      regAfterPairs cfg env ps2 ((pairBatch cfg p1.1 p1.2 (env p1.1 p1.2) reg1).registry) := by
    have hs : ps1 ++ p1 :: ps2 = (ps1 ++ [p1]) ++ ps2 := by simp
    rw [hs, regAfterPairs_append, hregA]
  have hXreg2 : X ∈ regAfterPairs cfg env (ps1 ++ p1 :: ps2) reg0 := by
    rw [hreg2]
    exact mem_regAfterPairs_mono cfg env ps2 _ X hXregA
  have hc2 : X ∉ (flushedPosts cfg p2.1 p2.2 (env p2.1 p2.2)
      (regAfterPairs cfg env (ps1 ++ p1 :: ps2) reg0)).map PostRow.post_id := by
    intro hmem
    obtain ⟨r2, hr2, hr2id⟩ := List.mem_map.mp hmem
    unfold flushedPosts at hr2
    by_cases hf2 : pairFailed (env p2.1 p2.2)
    · simp [hf2] at hr2
    · simp only [hf2, Bool.false_eq_true, if_neg, if_false, not_false_eq_true] at hr2
      obtain ⟨g1, _, _, _⟩ :=
        (pairBatch_posts_spec cfg p2.1 p2.2 (env p2.1 p2.2) _).2.1 r2 hr2
      rw [hr2id] at g1
      exact g1 hXreg2
  have hone : flushedPostsAll cfg env [p1] reg1 = [] := by
    unfold flushedPostsAll flushedPosts
    simp [hfail]
    rfl
  have hc3 : X ∉ (flushedPostsAll cfg env (allPairs cfg) reg0).map PostRow.post_id := by
    rw [hsplit1, flushedPostsAll_append, flushedPostsAll_append, hone, hregA]
    intro hmem
    rw [List.map_append, List.mem_append] at hmem
    rcases hmem with h | h
    · rw [List.append_nil] at h
      exact hXnotreg1 (flushedPostsAll_ids_sub_regAfter cfg env ps1 reg0 X h)
    · exact flushedPostsAll_ids_not_reg cfg env _ _ X h hXregA
  have hc4 : X ∉ (fileRows f0).map PostRow.post_id →
      X ∉ (fileRows (runScraper cfg env f0 c0).postsFile).map PostRow.post_id := by
    intro hnot hmem
    have hrows : fileRows (runScraper cfg env f0 c0).postsFile =
        fileRows f0 ++ flushedPostsAll cfg env (allPairs cfg) reg0 := by
      unfold runScraper scrapeData
      rw [runPairs_postsRows]
    rw [hrows, List.map_append, List.mem_append] at hmem
    rcases hmem with h | h
    · exact hnot h
    · exact hc3 h
  exact ⟨hfinalreg, hc2, hc3, hc4⟩

/-- Witness for C10: query Q1 accepts the thread and then raises; the thread
identifier is registered for the rest of the run but never reaches the
output file, even though Q2 matches the same thread. -/
theorem claim_C10_witness :
    "x" ∈ (runScraper cfgTwoQueries envOneFails none none).registry ∧
    "x" ∉ (fileRows (runScraper cfgTwoQueries envOneFails none none).postsFile).map
      PostRow.post_id := by
  have h := claim_C10 cfgTwoQueries envOneFails none none [] [] [] ("A", "Q1")
    ("A", "Q2") "x" rfl (by decide) (by decide)
  exact ⟨h.1, h.2.2.2 (by decide)⟩

/-- C3: a second run with the same configuration and environment and the
first run's artifacts leaves the thread-output file unchanged, and the
registry load returns exactly the identifiers of the output's identifier
column — the empty set when the file is absent or has zero data rows. -/
theorem claim_C3 (cfg : Config) (env : String → String → PairEnv)
    (f0 : CsvFile PostRow) (c0 : CsvFile CommentRow) :
    (runScraper cfg env (runScraper cfg env f0 c0).postsFile
        (runScraper cfg env f0 c0).commentsFile).postsFile =
      (runScraper cfg env f0 c0).postsFile ∧
    loadProcessedIds (none : CsvFile PostRow) = [] ∧
    loadProcessedIds (some [CsvLine.header]) = [] ∧
    (∀ (f : CsvFile PostRow) (x : String),
      x ∈ loadProcessedIds f ↔ x ∈ (fileRows f).map PostRow.post_id) := by
  have hrows : fileRows (runScraper cfg env f0 c0).postsFile =
      fileRows f0 ++ flushedPostsAll cfg env (allPairs cfg) (loadProcessedIds f0) := by
    unfold runScraper scrapeData
    rw [runPairs_postsRows]
  have habbrev : runScraper cfg env (runScraper cfg env f0 c0).postsFile
      (runScraper cfg env f0 c0).commentsFile =
      runPairs cfg env
        { registry := loadProcessedIds (runScraper cfg env f0 c0).postsFile
        , postsFile := (runScraper cfg env f0 c0).postsFile
        , commentsFile := (runScraper cfg env f0 c0).commentsFile
        , events := [] } (allPairs cfg) := rfl
  refine ⟨?_, rfl, by simp [loadProcessedIds, rowData], mem_loadProcessedIds⟩
  rw [habbrev]
  exact runPairs_postsFile_fixed cfg env (allPairs cfg) (loadProcessedIds f0) _
    (by
      intro x hx
      apply (mem_loadProcessedIds _ x).mpr
      rw [hrows, List.map_append, List.mem_append]
      exact Or.inl ((mem_loadProcessedIds f0 x).mp hx))
    (by
      intro x hx
      apply (mem_loadProcessedIds _ x).mpr
      rw [hrows, List.map_append, List.mem_append]
      exact Or.inr hx)
